import Mathlib

/-!
Shallow embedding of `custom_components/coverplus/cover.py` (CoverPlus virtual
tilting cover): the actuator state, the motor-direction controller (`_motor`
and its dispatch helper `_svc`), the tick-based tilt/position integrators
(`_act_tilt`, `_act_position`), the motion orchestrator (`_act`), the command
handlers, the startup restore logic, and the published properties.

Python floats are modelled as exact rationals, machine integers as `ℤ`.
The two timing loops are modelled with explicit fuel (`none` = the loop did
not finish within the given number of iterations).  The fire-and-forget
dispatch to the real cover is modelled by an event trace plus a failure
oracle: a `List Bool` consumed one entry per dispatch, `true` meaning that
dispatch raises (an empty oracle means no dispatch ever fails).
-/

namespace CoverPlus

/-- Motor directions, from the module constants `UP`, `DOWN`, `STOPPED`. -/
inductive Direction
| UP
| DOWN
| STOPPED
deriving DecidableEq, Repr

/-- Raw motor service calls that can be sent to the real cover. -/
inductive RawCmd
| open_cover
| close_cover
| stop_cover
deriving DecidableEq, Repr

/-- Observable events: a raw-command dispatch attempt (`_svc`) or a state
publish (`_push_state`). -/
inductive Ev
| tx (c : RawCmd)
| publish
deriving DecidableEq, Repr

/-- The mutable per-cover actuator state (fields of `TiltVirtualCover`). -/
structure CoverState where
  last_position : ℚ
  last_tilt : ℚ
  last_timestamp_millis : ℤ
  last_direction : Direction
  cancel_requested : Bool
deriving DecidableEq, Repr

/-- State at construction: position 0, tilt 0, timestamp 0, STOPPED. -/
def initState : CoverState :=
  { last_position := 0
    last_tilt := 0
    last_timestamp_millis := 0
    last_direction := Direction.STOPPED
    cancel_requested := false }

/-- Calibration, from `__init__`: `open_time_sec * 1000` and `tilt_time_ms`,
both in milliseconds. -/
structure Config where
  open_time_millis : ℚ
  tilt_time_millis : ℚ
deriving DecidableEq, Repr

/-- `self._position_rate_per_ms = 100.0 / self._open_time_millis`. -/
def Config.position_rate_per_ms (c : Config) : ℚ := 100 / c.open_time_millis

/-- `self._tilt_rate_per_ms = 100.0 / self._tilt_time_millis`. -/
def Config.tilt_rate_per_ms (c : Config) : ℚ := 100 / c.tilt_time_millis

/-- `EPS = 1e-6`. -/
def EPS : ℚ := 1 / 1000000

/-- `_TICK_MS = 100`. -/
def TICK_MS : ℤ := 100

/-- Python `int()` truncation toward zero of a rational, used for
`int(abs(need) / rate)` and for `int(v)` during restore. -/
def ratTrunc (q : ℚ) : ℤ := if q < 0 then -⌊-q⌋ else ⌊q⌋

/-- `max(0.0, min(100.0, x))`, the clamping formula of `_clamp`. -/
def clampQ (q : ℚ) : ℚ := max 0 (min 100 q)

/-- `_clamp`: clamp both `last_position` and `last_tilt` to `[0, 100]`. -/
def clampState (s : CoverState) : CoverState :=
  { s with
    last_position := clampQ s.last_position
    last_tilt := clampQ s.last_tilt }

/-- Whether the clamp invariant `0 ≤ position ≤ 100 ∧ 0 ≤ tilt ≤ 100` holds. -/
def inRange (s : CoverState) : Prop :=
  0 ≤ s.last_position ∧ s.last_position ≤ 100 ∧ 0 ≤ s.last_tilt ∧ s.last_tilt ≤ 100

instance (s : CoverState) : Decidable (inRange s) := by
  unfold inRange; infer_instance

/-- `_svc`: fire-and-forget dispatch of one raw command to the real cover.
Emits the dispatch attempt as a `tx` event.  If the dispatch raises (the
oracle entry is `true`), the exception handler sets `cancel_requested = True`
and `last_direction = STOPPED`; the exception is not re-raised. -/
def svc (c : RawCmd) (s : CoverState) (fl : List Bool) :
    CoverState × List Ev × List Bool :=
  match fl with
  | [] => (s, [Ev.tx c], [])
  | b :: rest =>
    if b then
      ({ s with cancel_requested := true, last_direction := Direction.STOPPED },
        [Ev.tx c], rest)
    else (s, [Ev.tx c], rest)

/-- The raw command corresponding to a requested direction
(`STOPPED → stop_cover`, `UP → open_cover`, `DOWN → close_cover`). -/
def rawOf : Direction → RawCmd
| Direction.STOPPED => RawCmd.stop_cover
| Direction.UP => RawCmd.open_cover
| Direction.DOWN => RawCmd.close_cover

/-- `_motor`: ensure the real motor matches the requested direction.
No-op when the direction is unchanged; on an UP↔DOWN reversal a
`stop_cover` is dispatched first; finally `last_direction := direction`. -/
def motor (direction : Direction) (s : CoverState) (fl : List Bool) :
    CoverState × List Ev × List Bool :=
  if direction = s.last_direction then (s, [], fl)
  else
    let step1 : CoverState × List Ev × List Bool :=
      if (s.last_direction = Direction.UP ∨ s.last_direction = Direction.DOWN) ∧
          (direction = Direction.UP ∨ direction = Direction.DOWN) ∧
          direction ≠ s.last_direction
      then svc RawCmd.stop_cover s fl
      else (s, [], fl)
    let step2 := svc (rawOf direction) step1.1 step1.2.2
    ({ step2.1 with last_direction := direction }, step1.2.1 ++ step2.2.1, step2.2.2)

/-- `slice_millis = max(1, min(TICK_MS, millis_to_boundary if > 0 else TICK_MS))`
with `millis_to_boundary = int(abs(need) / rate)`. -/
def sliceFor (rate need : ℚ) : ℤ :=
  let millis_to_boundary := ratTrunc (|need| / rate)
  max 1 (min TICK_MS (if 0 < millis_to_boundary then millis_to_boundary else TICK_MS))

/-- One scalar integration step:
`current += rate * slice_millis * (1 if need > 0 else -1)`. -/
def stepScalar (rate target current : ℚ) : ℚ :=
  let need := target - current
  current + rate * ((sliceFor rate need : ℤ) : ℚ) * (if 0 < need then 1 else -1)

/-- Body of one non-cancelled `_act_tilt` iteration: advance the tilt and the
timestamp by the slice, then `_clamp`. -/
def tiltStep (cfg : Config) (target : ℚ) (s : CoverState) : CoverState :=
  clampState
    { s with
      last_tilt := stepScalar cfg.tilt_rate_per_ms target s.last_tilt
      last_timestamp_millis :=
        s.last_timestamp_millis + sliceFor cfg.tilt_rate_per_ms (target - s.last_tilt) }

/-- Body of one non-cancelled `_act_position` iteration. -/
def posStep (cfg : Config) (target : ℚ) (s : CoverState) : CoverState :=
  clampState
    { s with
      last_position := stepScalar cfg.position_rate_per_ms target s.last_position
      last_timestamp_millis :=
        s.last_timestamp_millis + sliceFor cfg.position_rate_per_ms (target - s.last_position) }

/-- The `while True` loop of `_act_tilt` (target already clamped), with fuel.
Each iteration: on `cancel_requested` stop the motor, resync the timestamp to
`now`, publish and return; when `|target - tilt| < EPS` break; otherwise take
one integration step and publish. -/
def actTiltLoop (cfg : Config) (target : ℚ) (now : ℤ) :
    ℕ → CoverState → List Bool → Option (CoverState × List Ev × List Bool)
| 0, _, _ => none
| Nat.succ fuel, s, fl =>
  if s.cancel_requested then
    let r := motor Direction.STOPPED s fl
    some ({ r.1 with last_timestamp_millis := now }, r.2.1 ++ [Ev.publish], r.2.2)
  else if |target - s.last_tilt| < EPS then some (s, [], fl)
  else
    (actTiltLoop cfg target now fuel (tiltStep cfg target s) fl).map
      (fun p => (p.1, Ev.publish :: p.2.1, p.2.2))

/-- `_act_tilt`: clamp the target, then run the loop. -/
def actTilt (cfg : Config) (target : ℚ) (now : ℤ) (fuel : ℕ) (s : CoverState)
    (fl : List Bool) : Option (CoverState × List Ev × List Bool) :=
  actTiltLoop cfg (clampQ target) now fuel s fl

/-- The `while True` loop of `_act_position` (target already clamped). -/
def actPosLoop (cfg : Config) (target : ℚ) (now : ℤ) :
    ℕ → CoverState → List Bool → Option (CoverState × List Ev × List Bool)
| 0, _, _ => none
| Nat.succ fuel, s, fl =>
  if s.cancel_requested then
    let r := motor Direction.STOPPED s fl
    some ({ r.1 with last_timestamp_millis := now }, r.2.1 ++ [Ev.publish], r.2.2)
  else if |target - s.last_position| < EPS then some (s, [], fl)
  else
    (actPosLoop cfg target now fuel (posStep cfg target s) fl).map
      (fun p => (p.1, Ev.publish :: p.2.1, p.2.2))

/-- `_act_position`: clamp the target, then run the loop.  The
`target_direction` argument is only used for logging in the source. -/
def actPosition (cfg : Config) (target : ℚ) (_target_direction : Direction)
    (now : ℤ) (fuel : ℕ) (s : CoverState) (fl : List Bool) :
    Option (CoverState × List Ev × List Bool) :=
  actPosLoop cfg (clampQ target) now fuel s fl

/-- The idle return of `_act` (both idle cases): stop the motor, resync the
timestamp, publish, return. -/
def actIdleReturn (s : CoverState) (fl : List Bool) (now : ℤ) :
    Option (CoverState × List Ev × List Bool) :=
  let r := motor Direction.STOPPED s fl
  some ({ r.1 with last_timestamp_millis := now }, r.2.1 ++ [Ev.publish], r.2.2)

/-- The tilt-only path of `_act`: motor toward the tilt target, run the tilt
integrator, stop, resync, clamp, publish. -/
def actTiltOnly (cfg : Config) (t : ℚ) (now : ℤ) (fuel : ℕ) (s : CoverState)
    (fl : List Bool) : Option (CoverState × List Ev × List Bool) :=
  let tilt_direction := if t > s.last_tilt then Direction.UP else Direction.DOWN
  let r1 := motor tilt_direction s fl
  (actTilt cfg t now fuel r1.1 r1.2.2).bind (fun p =>
    let r3 := motor Direction.STOPPED p.1 p.2.2
    some (clampState { r3.1 with last_timestamp_millis := now },
      r1.2.1 ++ p.2.1 ++ r3.2.1 ++ [Ev.publish], r3.2.2))

/-- The full move sequence of `_act`: motor toward the position target,
pre-tilt to the extreme for that direction, run the position integrator,
optionally post-tilt, stop, resync, clamp, publish. -/
def actMoveSeq (cfg : Config) (tp : ℚ) (tt : Option ℚ) (now : ℤ) (fuel : ℕ)
    (s : CoverState) (fl : List Bool) : Option (CoverState × List Ev × List Bool) :=
  let target_direction :=
    if tp > s.last_position then Direction.UP else Direction.DOWN
  let r1 := motor target_direction s fl
  (actTilt cfg (if target_direction = Direction.UP then 100 else 0)
      now fuel r1.1 r1.2.2).bind (fun p2 =>
    (actPosition cfg tp target_direction now fuel p2.1 p2.2.2).bind (fun p3 =>
      let post : Option (CoverState × List Ev × List Bool) :=
        match tt with
        | some t =>
          if |t - p3.1.last_tilt| > EPS then
            let r4 := motor (if t > p3.1.last_tilt then Direction.UP else Direction.DOWN)
              p3.1 p3.2.2
            (actTilt cfg t now fuel r4.1 r4.2.2).bind (fun p5 =>
              some (p5.1, r4.2.1 ++ p5.2.1, p5.2.2))
          else some (p3.1, [], p3.2.2)
        | none => some (p3.1, [], p3.2.2)
      post.bind (fun p5 =>
        let r6 := motor Direction.STOPPED p5.1 p5.2.2
        some (clampState { r6.1 with last_timestamp_millis := now },
          r1.2.1 ++ p2.2.1 ++ p3.2.1 ++ p5.2.1 ++ r6.2.1 ++ [Ev.publish], r6.2.2))))

/-- `_act`: the motion orchestrator.  Clears `cancel_requested`, clamps the
targets, then takes the idle path, the tilt-only path, or the full
pre-tilt → move → post-tilt sequence, exactly as in the source. -/
def act (cfg : Config) (target_position : ℚ) (target_tilt : Option ℚ)
    (now : ℤ) (fuel : ℕ) (s0 : CoverState) (fl : List Bool) :
    Option (CoverState × List Ev × List Bool) :=
  let s : CoverState := { s0 with cancel_requested := false }
  let tp := clampQ target_position
  let tt := target_tilt.map clampQ
  if |tp - s.last_position| < EPS then
    match tt with
    | none => actIdleReturn s fl now
    | some t =>
      if |t - s.last_tilt| < EPS then actIdleReturn s fl now
      else actTiltOnly cfg t now fuel s fl
  else actMoveSeq cfg tp tt now fuel s fl

/-- `async_stop_cover`: set `cancel_requested`, stop the motor, force
`last_direction = STOPPED`, resync the timestamp, publish. -/
def stopCover (s : CoverState) (fl : List Bool) (now : ℤ) :
    CoverState × List Ev × List Bool :=
  let s1 : CoverState := { s with cancel_requested := true }
  let r := motor Direction.STOPPED s1 fl
  ({ r.1 with last_direction := Direction.STOPPED, last_timestamp_millis := now },
    r.2.1 ++ [Ev.publish], r.2.2)

/-- `async_set_cover_position`: `tp = float(int(position))`,
`tt = 0.0 if tp < self.last_position else 100.0`, then `_act(tp, tt)`.
The service schema has already validated `position` as an integer. -/
def setCoverPosition (cfg : Config) (position : ℤ) (now : ℤ) (fuel : ℕ)
    (s : CoverState) (fl : List Bool) : Option (CoverState × List Ev × List Bool) :=
  let tp : ℚ := (position : ℚ)
  let tt : ℚ := if tp < s.last_position then 0 else 100
  act cfg tp (some tt) now fuel s fl

/-- A persisted attribute value, classified by how the Python conversions in
the restore block treat it: `rnum q` is any value `float()`/`int()` convert
(numbers; a numeric string behaves the same for conversion and can never equal
a direction name), `rstr v` is a non-numeric string, on which `float()` and
`int()` raise and which compares as a string against `UP`/`DOWN`/`STOPPED`. -/
inductive RVal
| rnum (q : ℚ)
| rstr (v : String)
deriving DecidableEq, Repr

/-- `float(v)`: `none` models a raised exception. -/
def RVal.toFloat : RVal → Option ℚ
| RVal.rnum q => some q
| RVal.rstr _ => none

/-- `int(v)`: Python truncates toward zero; `none` models a raised exception. -/
def RVal.toInt : RVal → Option ℤ
| RVal.rnum q => some (ratTrunc q)
| RVal.rstr _ => none

/-- `v in (UP, DOWN, STOPPED)` combined with the assignment: the direction a
value restores to, if any.  Never raises. -/
def RVal.asDirection : RVal → Option Direction
| RVal.rstr "UP" => some Direction.UP
| RVal.rstr "DOWN" => some Direction.DOWN
| RVal.rstr "STOPPED" => some Direction.STOPPED
| _ => none

/-- The persisted attribute snapshot offered by the restore helper. -/
structure Snapshot where
  last_position : Option RVal
  last_tilt : Option RVal
  last_timestamp_millis : Option RVal
  last_direction : Option RVal
deriving DecidableEq, Repr

/-- The restore block of `async_added_to_hass`.  The four fields are examined
in order inside a single `try`: a conversion that raises keeps the assignments
already made, skips every later field, and the exception is swallowed; a
missing field, or a direction value not in `(UP, DOWN, STOPPED)`, is skipped
without raising. -/
def restoreFields (a : Snapshot) (s0 : CoverState) : CoverState :=
  match a.last_position with
  | some (RVal.rstr _) => s0
  | vp =>
    let s1 := match vp with
      | some (RVal.rnum q) => { s0 with last_position := q }
      | _ => s0
    match a.last_tilt with
    | some (RVal.rstr _) => s1
    | vt =>
      let s2 := match vt with
        | some (RVal.rnum q) => { s1 with last_tilt := q }
        | _ => s1
      match a.last_timestamp_millis with
      | some (RVal.rstr _) => s2
      | vts =>
        let s3 := match vts with
          | some (RVal.rnum q) => { s2 with last_timestamp_millis := ratTrunc q }
          | _ => s2
        match a.last_direction with
        | some v =>
          (match v.asDirection with
          | some d => { s3 with last_direction := d }
          | none => s3)
        | none => s3

/-- Restore at startup: `async_get_last_state` may return no state at all. -/
def restoreFrom (snap : Option Snapshot) (s : CoverState) : CoverState :=
  match snap with
  | none => s
  | some a => restoreFields a s

/-- Python 3 `round()` with no digits: round half to even. -/
def roundHalfEven (q : ℚ) : ℤ :=
  let f := ⌊q⌋
  let r := q - (f : ℚ)
  if r < 1/2 then f
  else if 1/2 < r then f + 1
  else if f % 2 = 0 then f else f + 1

/-- `current_cover_position`: `int(round(self.last_position))`. -/
def currentCoverPosition (s : CoverState) : ℤ := roundHalfEven s.last_position

/-- `current_cover_tilt_position`: `int(round(self.last_tilt))`. -/
def currentCoverTiltPosition (s : CoverState) : ℤ := roundHalfEven s.last_tilt

/-- `is_closed`: `int(round(self.last_position)) == 0`. -/
def is_closed (s : CoverState) : Bool := roundHalfEven s.last_position == 0

/-- Raw commands carried by a trace of events. -/
def txCmds (t : List Ev) : List RawCmd :=
  t.filterMap (fun e => match e with | Ev.tx c => some c | Ev.publish => none)

/-- Whether two adjacent raw commands form a forbidden direct reversal
(open immediately followed by close, or close immediately followed by open). -/
def revPair (a b : RawCmd) : Bool :=
  (a == RawCmd.open_cover && b == RawCmd.close_cover) ||
  (a == RawCmd.close_cover && b == RawCmd.open_cover)

/-- A raw-command sequence is reversal-safe when no adjacent pair is a direct
open/close reversal. -/
def SafeSeq (l : List RawCmd) : Prop :=
  List.Chain' (fun a b => revPair a b = false) l

/-- Run a sequence of `_motor` requests, threading state, events and the
failure oracle. -/
def motorSeq : List Direction → CoverState → List Bool → CoverState × List Ev × List Bool
| [], s, fl => (s, [], fl)
| d :: ds, s, fl =>
  let r1 := motor d s fl
  let r2 := motorSeq ds r1.1 r1.2.2
  (r2.1, r1.2.1 ++ r2.2.1, r2.2.2)

/-- The raw commands a single `_motor` call emits, as a function of the prior
and the requested direction (proved equal to the emitted trace below). -/
def motorPiece (prior d : Direction) : List RawCmd :=
  if d = prior then []
  else
    match prior, d with
    | Direction.UP, Direction.DOWN => [RawCmd.stop_cover, rawOf d]
    | Direction.DOWN, Direction.UP => [RawCmd.stop_cover, rawOf d]
    | _, _ => [rawOf d]

/-- A nonempty emitted trace ends with the raw command of the direction the
controller last set (invariant used for reversal safety across calls). -/
def endsOk (d : Direction) (l : List RawCmd) : Prop :=
  l = [] ∨ l.getLast? = some (rawOf d)

/-- Scenario-1 calibration: `open_time_sec = 20`, `tilt_time_ms = 750`. -/
def cfg750 : Config := { open_time_millis := 20000, tilt_time_millis := 750 }

/-- Calibration with `open_time_sec = 20`, `tilt_time_ms = 1000`. -/
def cfg1000 : Config := { open_time_millis := 20000, tilt_time_millis := 1000 }

/-- A state whose motor is currently running UP. -/
def sUP : CoverState := { initState with last_direction := Direction.UP }

/-- A state with a pending cancellation while moving UP. -/
def sCancel : CoverState :=
  { initState with cancel_requested := true, last_direction := Direction.UP }

/-- The tilt value reached after one integration step toward 1 from 0 at the
750 ms tilt rate. -/
def s14 : CoverState := { initState with last_tilt := 14/15 }

/-- A state restored at position 0.4. -/
def s04 : CoverState := { initState with last_position := 2/5 }

/-- A state at position 50, tilt 100 (Scenario 2). -/
def s5010 : CoverState := { initState with last_position := 50, last_tilt := 100 }

/-- A persisted snapshot whose position is out of range. -/
def snap150 : Snapshot :=
  { last_position := some (RVal.rnum 150)
    last_tilt := none
    last_timestamp_millis := none
    last_direction := none }

/-- A persisted snapshot whose position raises on conversion while the tilt
is individually valid. -/
def snapAbort : Snapshot :=
  { last_position := some (RVal.rstr "x")
    last_tilt := some (RVal.rnum 50)
    last_timestamp_millis := none
    last_direction := none }

/-! ## Helper lemmas -/


-- ---- svc basics
lemma svc_trace (c : RawCmd) (s : CoverState) (fl : List Bool) :
    (svc c s fl).2.1 = [Ev.tx c] := by
  unfold svc
  rcases fl with _ | ⟨b, r⟩
  · rfl
  · cases b <;> simp

lemma svc_position (c : RawCmd) (s : CoverState) (fl : List Bool) :
    (svc c s fl).1.last_position = s.last_position := by
  unfold svc
  rcases fl with _ | ⟨b, r⟩
  · rfl
  · cases b <;> simp

lemma svc_tilt (c : RawCmd) (s : CoverState) (fl : List Bool) :
    (svc c s fl).1.last_tilt = s.last_tilt := by
  unfold svc
  rcases fl with _ | ⟨b, r⟩
  · rfl
  · cases b <;> simp

lemma svc_ts (c : RawCmd) (s : CoverState) (fl : List Bool) :
    (svc c s fl).1.last_timestamp_millis = s.last_timestamp_millis := by
  unfold svc
  rcases fl with _ | ⟨b, r⟩
  · rfl
  · cases b <;> simp

lemma svc_cancel_mono (c : RawCmd) (s : CoverState) (fl : List Bool)
    (h : s.cancel_requested = true) : (svc c s fl).1.cancel_requested = true := by
  unfold svc
  rcases fl with _ | ⟨b, r⟩
  · exact h
  · cases b <;> simp [h]

-- ---- motor basics
lemma motor_position (d : Direction) (s : CoverState) (fl : List Bool) :
    (motor d s fl).1.last_position = s.last_position := by
  unfold motor
  split
  · rfl
  · simp only []
    split <;> simp [svc_position]

lemma motor_tilt (d : Direction) (s : CoverState) (fl : List Bool) :
    (motor d s fl).1.last_tilt = s.last_tilt := by
  unfold motor
  split
  · rfl
  · simp only []
    split <;> simp [svc_tilt]

lemma motor_ts (d : Direction) (s : CoverState) (fl : List Bool) :
    (motor d s fl).1.last_timestamp_millis = s.last_timestamp_millis := by
  unfold motor
  split
  · rfl
  · simp only []
    split <;> simp [svc_ts]

lemma motor_dir (d : Direction) (s : CoverState) (fl : List Bool) :
    (motor d s fl).1.last_direction = d := by
  unfold motor
  split
  · next h => simp [h.symm]
  · rfl

lemma motor_cancel_mono (d : Direction) (s : CoverState) (fl : List Bool)
    (h : s.cancel_requested = true) : (motor d s fl).1.cancel_requested = true := by
  unfold motor
  split
  · exact h
  · simp only []
    split
    · exact svc_cancel_mono _ _ _ (svc_cancel_mono _ _ _ h)
    · exact svc_cancel_mono _ _ _ h

-- ---- clamp lemmas
lemma clampQ_nonneg (q : ℚ) : 0 ≤ clampQ q := le_max_left 0 _

lemma clampQ_le_100 (q : ℚ) : clampQ q ≤ 100 := by
  unfold clampQ
  rcases le_total 0 (min 100 q) with h | h
  · rw [max_eq_right h]; exact min_le_left _ _
  · rw [max_eq_left h]; norm_num

lemma clampQ_eq_self (q : ℚ) (h0 : 0 ≤ q) (h1 : q ≤ 100) : clampQ q = q := by
  unfold clampQ
  rw [min_eq_right h1, max_eq_right h0]

lemma clampState_inRange (s : CoverState) : inRange (clampState s) := by
  refine ⟨clampQ_nonneg _, clampQ_le_100 _, clampQ_nonneg _, clampQ_le_100 _⟩

lemma clampState_dir (s : CoverState) :
    (clampState s).last_direction = s.last_direction := rfl

lemma clampState_cancel (s : CoverState) :
    (clampState s).cancel_requested = s.cancel_requested := rfl

-- ---- ratTrunc lemmas
lemma ratTrunc_of_nonneg (q : ℚ) (h : 0 ≤ q) : ratTrunc q = ⌊q⌋ := by
  unfold ratTrunc
  rw [if_neg (not_lt.mpr h)]

lemma ratTrunc_le (q : ℚ) (h : 0 ≤ q) : (ratTrunc q : ℚ) ≤ q := by
  rw [ratTrunc_of_nonneg q h]
  exact Int.floor_le q

lemma ratTrunc_nonneg (q : ℚ) (h : 0 ≤ q) : 0 ≤ ratTrunc q := by
  rw [ratTrunc_of_nonneg q h]
  exact Int.floor_nonneg.mpr h

/-- helper for concrete evaluations of ratTrunc -/
lemma ratTrunc_eq_of (q : ℚ) (z : ℤ) (h0 : 0 ≤ q) (h1 : (z : ℚ) ≤ q)
    (h2 : q < z + 1) : ratTrunc q = z := by
  rw [ratTrunc_of_nonneg q h0]
  exact Int.floor_eq_iff.mpr ⟨h1, by exact_mod_cast h2⟩

-- ---- raw-command trace machinery (to be moved to definitions section)
-- helper description of the raw commands one motor call emits
lemma txCmds_append (t1 t2 : List Ev) :
    txCmds (t1 ++ t2) = txCmds t1 ++ txCmds t2 := by
  unfold txCmds
  exact List.filterMap_append _ _ _

lemma txCmds_tx (c : RawCmd) : txCmds [Ev.tx c] = [c] := rfl

lemma txCmds_nil : txCmds [] = [] := rfl

lemma motor_txCmds (d : Direction) (s : CoverState) (fl : List Bool) :
    txCmds (motor d s fl).2.1 = motorPiece s.last_direction d := by
  unfold motor motorPiece
  split
  · next h => simp [h, txCmds_nil]
  · next h =>
    split
    · next hrev =>
      rcases hrev with ⟨hs, hd, hne⟩
      simp only [txCmds_append, svc_trace, txCmds_tx]
      rcases hs with hs | hs <;> rcases hd with hd | hd <;>
        simp_all [Ne.symm]
    · next hnrev =>
      simp only [txCmds_append, svc_trace, txCmds_tx, txCmds_nil]
      cases hd : d <;> cases hsd : s.last_direction <;> simp_all [txCmds_nil]

lemma revPair_right_stop (a : RawCmd) : revPair a RawCmd.stop_cover = false := by
  cases a <;> rfl

lemma revPair_left_stop (b : RawCmd) : revPair RawCmd.stop_cover b = false := by
  cases b <;> rfl

lemma SafeSeq_nil : SafeSeq [] := List.chain'_nil

lemma SafeSeq_append (l1 l2 : List RawCmd) (h1 : SafeSeq l1) (h2 : SafeSeq l2)
    (hb : ∀ a ∈ l1.getLast?, ∀ b ∈ l2.head?, revPair a b = false) :
    SafeSeq (l1 ++ l2) :=
  List.chain'_append.mpr ⟨h1, h2, hb⟩

-- trailing command of an emitted trace matches the current direction
lemma endsOk_append_last (d : Direction) (pre add : List RawCmd)
    (h : add.getLast? = some (rawOf d)) : endsOk d (pre ++ add) := by
  right
  rcases add with _ | ⟨a, r⟩
  · simp at h
  · rw [List.getLast?_append_of_ne_nil _ (by simp)]
    exact h

lemma safe_append_piece (pre : List RawCmd) (dprior d : Direction)
    (hpre : SafeSeq pre) (hend : endsOk dprior pre) :
    SafeSeq (pre ++ motorPiece dprior d) ∧ endsOk d (pre ++ motorPiece dprior d) := by
  by_cases hsame : d = dprior
  · subst hsame
    unfold motorPiece
    rw [if_pos rfl]
    constructor
    · simpa using hpre
    · rcases hend with h | h
      · left; simp [h]
      · right; simpa using h
  · have hshape : motorPiece dprior d = [RawCmd.stop_cover, rawOf d] ∨
        (motorPiece dprior d = [rawOf d] ∧ (d = Direction.STOPPED ∨ dprior = Direction.STOPPED)) := by
      unfold motorPiece
      rw [if_neg hsame]
      cases dprior <;> cases d <;> simp_all
    rcases hshape with hs | ⟨hs, hstop⟩
    · rw [hs]
      constructor
      · refine SafeSeq_append _ _ hpre ?_ ?_
        · exact List.chain'_cons.mpr ⟨revPair_left_stop _, List.chain'_singleton _⟩
        · intro a _ b hb
          simp at hb
          rw [← hb]
          exact revPair_right_stop a
      · exact endsOk_append_last _ _ _ (by simp)
    · rw [hs]
      constructor
      · refine SafeSeq_append _ _ hpre (List.chain'_singleton _) ?_
        intro a ha b hb
        simp at hb
        subst hb
        rcases hstop with h | h
        · subst h
          exact revPair_right_stop a
        · subst h
          rcases hend with he | he
          · simp [he] at ha
          · rw [he] at ha
            simp at ha
            subst ha
            exact revPair_left_stop _
      · exact endsOk_append_last _ _ _ (by simp)

lemma motorSeq_safe_aux (ds : List Direction) (s : CoverState) (fl : List Bool)
    (pre : List RawCmd) (hpre : SafeSeq pre) (hend : endsOk s.last_direction pre) :
    SafeSeq (pre ++ txCmds (motorSeq ds s fl).2.1) := by
  induction ds generalizing s fl pre with
  | nil => simpa [motorSeq, txCmds_nil] using hpre
  | cons d ds ih =>
    have hstep := safe_append_piece pre s.last_direction d hpre hend
    have hrw : txCmds (motorSeq (d :: ds) s fl).2.1 =
        txCmds (motor d s fl).2.1 ++ txCmds (motorSeq ds (motor d s fl).1 (motor d s fl).2.2).2.1 := by
      simp [motorSeq, txCmds_append]
    rw [hrw, motor_txCmds, ← List.append_assoc]
    have hend2 : endsOk (motor d s fl).1.last_direction (pre ++ motorPiece s.last_direction d) := by
      rw [motor_dir]
      exact hstep.2
    exact ih (motor d s fl).1 (motor d s fl).2.2 _ hstep.1 hend2

lemma motorSeq_safe (ds : List Direction) (s : CoverState) (fl : List Bool) :
    SafeSeq (txCmds (motorSeq ds s fl).2.1) := by
  have := motorSeq_safe_aux ds s fl [] SafeSeq_nil (Or.inl rfl)
  simpa using this

lemma motor_trace_reversal (d : Direction) (s : CoverState) (fl : List Bool)
    (hs : s.last_direction = Direction.UP ∨ s.last_direction = Direction.DOWN)
    (hd : d = Direction.UP ∨ d = Direction.DOWN)
    (hne : d ≠ s.last_direction) :
    (motor d s fl).2.1 = [Ev.tx RawCmd.stop_cover, Ev.tx (rawOf d)] := by
  unfold motor
  rw [if_neg hne, if_pos ⟨hs, hd, hne⟩]
  simp [svc_trace]

lemma actTiltLoop_cancel (cfg : Config) (target : ℚ) (now : ℤ) (n : ℕ)
    (s : CoverState) (fl : List Bool) (h : s.cancel_requested = true) :
    ∃ s1 t1 fl1,
      actTiltLoop cfg target now (n + 1) s fl = some (s1, t1 ++ [Ev.publish], fl1) ∧
      s1.last_position = s.last_position ∧ s1.last_tilt = s.last_tilt ∧
      s1.last_timestamp_millis = now ∧ s1.last_direction = Direction.STOPPED ∧
      s1.cancel_requested = true := by
  refine ⟨{ (motor Direction.STOPPED s fl).1 with last_timestamp_millis := now },
    (motor Direction.STOPPED s fl).2.1, (motor Direction.STOPPED s fl).2.2, ?_, ?_, ?_, ?_, ?_, ?_⟩
  · simp only [actTiltLoop]
    rw [if_pos h]
  · exact motor_position _ _ _
  · exact motor_tilt _ _ _
  · rfl
  · exact motor_dir _ _ _
  · exact motor_cancel_mono _ _ _ h

lemma actPosLoop_cancel (cfg : Config) (target : ℚ) (now : ℤ) (n : ℕ)
    (s : CoverState) (fl : List Bool) (h : s.cancel_requested = true) :
    ∃ s1 t1 fl1,
      actPosLoop cfg target now (n + 1) s fl = some (s1, t1 ++ [Ev.publish], fl1) ∧
      s1.last_position = s.last_position ∧ s1.last_tilt = s.last_tilt ∧
      s1.last_timestamp_millis = now ∧ s1.last_direction = Direction.STOPPED ∧
      s1.cancel_requested = true := by
  refine ⟨{ (motor Direction.STOPPED s fl).1 with last_timestamp_millis := now },
    (motor Direction.STOPPED s fl).2.1, (motor Direction.STOPPED s fl).2.2, ?_, ?_, ?_, ?_, ?_, ?_⟩
  · simp only [actPosLoop]
    rw [if_pos h]
  · exact motor_position _ _ _
  · exact motor_tilt _ _ _
  · rfl
  · exact motor_dir _ _ _
  · exact motor_cancel_mono _ _ _ h

-- Scenario-1 calibration: open_time 20 s, tilt_time 750 ms
lemma cfg750_tilt_rate : cfg750.tilt_rate_per_ms = 2/15 := by
  norm_num [Config.tilt_rate_per_ms, cfg750]

lemma tiltStep_tilt (cfg : Config) (target : ℚ) (s : CoverState) :
    (tiltStep cfg target s).last_tilt =
      clampQ (stepScalar cfg.tilt_rate_per_ms target s.last_tilt) := rfl

lemma tiltStep_cancel (cfg : Config) (target : ℚ) (s : CoverState) :
    (tiltStep cfg target s).cancel_requested = s.cancel_requested := rfl

lemma posStep_position (cfg : Config) (target : ℚ) (s : CoverState) :
    (posStep cfg target s).last_position =
      clampQ (stepScalar cfg.position_rate_per_ms target s.last_position) := rfl

lemma step_eval_0 : clampQ (stepScalar ((2:ℚ)/15) 1 0) = 14/15 := by
  have hm : ratTrunc (|(1:ℚ) - 0| / ((2:ℚ)/15)) = 7 :=
    ratTrunc_eq_of _ 7 (by norm_num) (by norm_num) (by norm_num)
  simp only [stepScalar, sliceFor]
  rw [hm]
  norm_num [clampQ, TICK_MS, min_def, max_def]

lemma step_eval_1 : clampQ (stepScalar ((2:ℚ)/15) 1 (14/15)) = 214/15 := by
  have hm : ratTrunc (|(1:ℚ) - 14/15| / ((2:ℚ)/15)) = 0 :=
    ratTrunc_eq_of _ 0 (by norm_num [abs]) (by norm_num [abs]) (by norm_num [abs])
  simp only [stepScalar, sliceFor]
  rw [hm]
  norm_num [clampQ, TICK_MS, min_def, max_def]

lemma step_eval_2 : clampQ (stepScalar ((2:ℚ)/15) 1 (214/15)) = 16/15 := by
  have hm : ratTrunc (|(1:ℚ) - 214/15| / ((2:ℚ)/15)) = 99 :=
    ratTrunc_eq_of _ 99 (by norm_num [abs]) (by norm_num [abs]) (by norm_num [abs])
  simp only [stepScalar, sliceFor]
  rw [hm]
  norm_num [clampQ, TICK_MS, min_def, max_def]

lemma step_eval_3 : clampQ (stepScalar ((2:ℚ)/15) 1 (16/15)) = 0 := by
  have hm : ratTrunc (|(1:ℚ) - 16/15| / ((2:ℚ)/15)) = 0 :=
    ratTrunc_eq_of _ 0 (by norm_num [abs]) (by norm_num [abs]) (by norm_num [abs])
  simp only [stepScalar, sliceFor]
  rw [hm]
  norm_num [clampQ, TICK_MS, min_def, max_def]

lemma actTiltLoop_diverges (now : ℤ) (n : ℕ) (s : CoverState) (fl : List Bool)
    (hcancel : s.cancel_requested = false)
    (horb : s.last_tilt = 0 ∨ s.last_tilt = 14/15 ∨ s.last_tilt = 214/15 ∨ s.last_tilt = 16/15) :
    actTiltLoop cfg750 1 now n s fl = none := by
  induction n generalizing s with
  | zero => rfl
  | succ n ih =>
    have habs : ¬ (|1 - s.last_tilt| < EPS) := by
      rcases horb with h | h | h | h <;> rw [h] <;> norm_num [EPS, abs]
    have hnext : (tiltStep cfg750 1 s).last_tilt = 0 ∨
        (tiltStep cfg750 1 s).last_tilt = 14/15 ∨
        (tiltStep cfg750 1 s).last_tilt = 214/15 ∨
        (tiltStep cfg750 1 s).last_tilt = 16/15 := by
      rw [tiltStep_tilt, cfg750_tilt_rate]
      rcases horb with h | h | h | h <;> rw [h]
      · right; left; exact step_eval_0
      · right; right; left; exact step_eval_1
      · right; right; right; exact step_eval_2
      · left; exact step_eval_3
    have hnc : (tiltStep cfg750 1 s).cancel_requested = false := by
      rw [tiltStep_cancel]; exact hcancel
    simp only [actTiltLoop]
    rw [if_neg (by simp [hcancel]), if_neg habs, ih _ hnc hnext]
    rfl

lemma clampQ_0 : clampQ 0 = 0 := by norm_num [clampQ, min_def, max_def]

lemma clampQ_1 : clampQ 1 = 1 := by norm_num [clampQ, min_def, max_def]

lemma sliceFor_bounds (rate need : ℚ) (_hrate : 0 < rate)
    (hmtb : 1 ≤ ratTrunc (|need| / rate)) :
    1 ≤ sliceFor rate need ∧ sliceFor rate need ≤ ratTrunc (|need| / rate) := by
  simp only [sliceFor]
  rw [if_pos (by omega : 0 < ratTrunc (|need| / rate))]
  constructor
  · exact le_max_left 1 _
  · exact max_le (by omega) (min_le_right _ _)

lemma stepScalar_monotone (rate target cur : ℚ)
    (hrate : 0 < rate) (h0 : 0 ≤ cur) (h1 : cur ≤ 100)
    (ht0 : 0 ≤ target) (ht1 : target ≤ 100)
    (hmtb : 1 ≤ ratTrunc (|target - cur| / rate)) :
    0 ≤ (target - clampQ (stepScalar rate target cur)) * (target - cur) ∧
    |target - clampQ (stepScalar rate target cur)| ≤ |target - cur| - rate := by
  have hxnn : 0 ≤ |target - cur| / rate := div_nonneg (abs_nonneg _) (le_of_lt hrate)
  have hfloor : ((ratTrunc (|target - cur| / rate) : ℤ) : ℚ) ≤ |target - cur| / rate :=
    ratTrunc_le _ hxnn
  obtain ⟨hs1, hs2⟩ := sliceFor_bounds rate (target - cur) hrate hmtb
  have hsl1 : (1 : ℚ) ≤ ((sliceFor rate (target - cur) : ℤ) : ℚ) := by exact_mod_cast hs1
  have hsl2 : ((sliceFor rate (target - cur) : ℤ) : ℚ) ≤ |target - cur| / rate := by
    calc ((sliceFor rate (target - cur) : ℤ) : ℚ)
        ≤ ((ratTrunc (|target - cur| / rate) : ℤ) : ℚ) := by exact_mod_cast hs2
      _ ≤ |target - cur| / rate := hfloor
  set sl : ℚ := ((sliceFor rate (target - cur) : ℤ) : ℚ) with hsl
  have hdelta_lb : rate ≤ rate * sl := by nlinarith
  have hdelta_ub : rate * sl ≤ |target - cur| := by
    have := mul_le_mul_of_nonneg_left hsl2 (le_of_lt hrate)
    calc rate * sl ≤ rate * (|target - cur| / rate) := this
      _ = |target - cur| := by field_simp
  rcases lt_trichotomy (target - cur) 0 with hneg | hzero | hpos
  · have habs : |target - cur| = -(target - cur) := abs_of_neg hneg
    have hsign : stepScalar rate target cur = cur + rate * sl * (-1) := by
      simp only [stepScalar]
      rw [if_neg (by linarith : ¬ (0 < target - cur))]
    have hnext0 : cur + rate * sl * (-1) = cur - rate * sl := by ring
    have hb0 : 0 ≤ cur - rate * sl := by nlinarith [habs, hdelta_ub]
    have hb1 : cur - rate * sl ≤ 100 := by nlinarith
    have hclamp : clampQ (stepScalar rate target cur) = cur - rate * sl := by
      rw [hsign, hnext0, clampQ_eq_self _ hb0 hb1]
    rw [hclamp]
    constructor
    · nlinarith [habs, hdelta_ub]
    · rw [habs, abs_of_nonpos (by nlinarith [habs, hdelta_ub])]
      nlinarith
  · rw [hzero] at hmtb
    simp at hmtb
    rw [show ratTrunc (0:ℚ) = 0 by unfold ratTrunc; simp] at hmtb
    omega
  · have habs : |target - cur| = target - cur := abs_of_pos hpos
    have hsign : stepScalar rate target cur = cur + rate * sl * 1 := by
      simp only [stepScalar]
      rw [if_pos hpos]
    have hb0 : 0 ≤ cur + rate * sl := by nlinarith
    have hb1 : cur + rate * sl ≤ 100 := by nlinarith [habs, hdelta_ub]
    have hclamp : clampQ (stepScalar rate target cur) = cur + rate * sl := by
      rw [hsign, show cur + rate * sl * 1 = cur + rate * sl by ring,
        clampQ_eq_self _ hb0 hb1]
    rw [hclamp]
    constructor
    · nlinarith [habs, hdelta_ub]
    · rw [habs, abs_of_nonneg (by nlinarith [habs, hdelta_ub])]
      nlinarith

lemma tiltStep_inRange (cfg : Config) (target : ℚ) (s : CoverState) :
    inRange (tiltStep cfg target s) := clampState_inRange _

lemma posStep_inRange (cfg : Config) (target : ℚ) (s : CoverState) :
    inRange (posStep cfg target s) := clampState_inRange _

lemma inRange_motor_ts (d : Direction) (s : CoverState) (fl : List Bool) (now : ℤ)
    (hs : inRange s) :
    inRange { (motor d s fl).1 with last_timestamp_millis := now } := by
  obtain ⟨a, b, c, e⟩ := hs
  refine ⟨?_, ?_, ?_, ?_⟩ <;>
    simp only [motor_position, motor_tilt] <;> assumption

lemma actTiltLoop_inRange (cfg : Config) (target : ℚ) (now : ℤ) (n : ℕ) :
    ∀ (s : CoverState) (fl : List Bool) (r : CoverState × List Ev × List Bool),
    inRange s → actTiltLoop cfg target now n s fl = some r → inRange r.1 := by
  induction n with
  | zero => intro s fl r hs h; simp [actTiltLoop] at h
  | succ n ih =>
    intro s fl r hs h
    simp only [actTiltLoop] at h
    by_cases hc : s.cancel_requested
    · rw [if_pos hc] at h
      simp only [Option.some.injEq] at h
      rw [← h]
      exact inRange_motor_ts _ _ _ _ hs
    · rw [if_neg hc] at h
      by_cases hb : |target - s.last_tilt| < EPS
      · rw [if_pos hb] at h
        simp only [Option.some.injEq] at h
        rw [← h]
        exact hs
      · rw [if_neg hb] at h
        cases hrec : actTiltLoop cfg target now n (tiltStep cfg target s) fl with
        | none => rw [hrec] at h; simp at h
        | some r2 =>
          rw [hrec] at h
          simp only [Option.map_some', Option.some.injEq] at h
          have := ih (tiltStep cfg target s) fl r2 (tiltStep_inRange cfg target s) hrec
          rw [← h]
          exact this

lemma actPosLoop_inRange (cfg : Config) (target : ℚ) (now : ℤ) (n : ℕ) :
    ∀ (s : CoverState) (fl : List Bool) (r : CoverState × List Ev × List Bool),
    inRange s → actPosLoop cfg target now n s fl = some r → inRange r.1 := by
  induction n with
  | zero => intro s fl r hs h; simp [actPosLoop] at h
  | succ n ih =>
    intro s fl r hs h
    simp only [actPosLoop] at h
    by_cases hc : s.cancel_requested
    · rw [if_pos hc] at h
      simp only [Option.some.injEq] at h
      rw [← h]
      exact inRange_motor_ts _ _ _ _ hs
    · rw [if_neg hc] at h
      by_cases hb : |target - s.last_position| < EPS
      · rw [if_pos hb] at h
        simp only [Option.some.injEq] at h
        rw [← h]
        exact hs
      · rw [if_neg hb] at h
        cases hrec : actPosLoop cfg target now n (posStep cfg target s) fl with
        | none => rw [hrec] at h; simp at h
        | some r2 =>
          rw [hrec] at h
          simp only [Option.map_some', Option.some.injEq] at h
          have := ih (posStep cfg target s) fl r2 (posStep_inRange cfg target s) hrec
          rw [← h]
          exact this

lemma stopCover_inRange (s : CoverState) (fl : List Bool) (now : ℤ)
    (hs : inRange s) : inRange (stopCover s fl now).1 := by
  obtain ⟨a, b, c, e⟩ := hs
  unfold stopCover
  refine ⟨?_, ?_, ?_, ?_⟩ <;>
    simp only [motor_position, motor_tilt] <;> assumption

lemma actIdleReturn_eq (s : CoverState) (fl : List Bool) (now : ℤ) :
    actIdleReturn s fl now =
      some ({ (motor Direction.STOPPED s fl).1 with last_timestamp_millis := now },
        (motor Direction.STOPPED s fl).2.1 ++ [Ev.publish],
        (motor Direction.STOPPED s fl).2.2) := rfl

lemma actTiltOnly_eq (cfg : Config) (t : ℚ) (now : ℤ) (fuel : ℕ)
    (s : CoverState) (fl : List Bool) :
    actTiltOnly cfg t now fuel s fl =
      (actTilt cfg t now fuel
          (motor (if t > s.last_tilt then Direction.UP else Direction.DOWN) s fl).1
          (motor (if t > s.last_tilt then Direction.UP else Direction.DOWN) s fl).2.2).bind
        (fun p =>
          some (clampState { (motor Direction.STOPPED p.1 p.2.2).1 with last_timestamp_millis := now },
            (motor (if t > s.last_tilt then Direction.UP else Direction.DOWN) s fl).2.1
              ++ p.2.1 ++ (motor Direction.STOPPED p.1 p.2.2).2.1 ++ [Ev.publish],
            (motor Direction.STOPPED p.1 p.2.2).2.2)) := rfl

lemma actMoveSeq_eq (cfg : Config) (tp : ℚ) (tt : Option ℚ) (now : ℤ) (fuel : ℕ)
    (s : CoverState) (fl : List Bool) :
    actMoveSeq cfg tp tt now fuel s fl =
      (actTilt cfg
          (if (if tp > s.last_position then Direction.UP else Direction.DOWN) = Direction.UP then 100 else 0)
          now fuel
          (motor (if tp > s.last_position then Direction.UP else Direction.DOWN) s fl).1
          (motor (if tp > s.last_position then Direction.UP else Direction.DOWN) s fl).2.2).bind
        (fun p2 =>
          (actPosition cfg tp (if tp > s.last_position then Direction.UP else Direction.DOWN)
              now fuel p2.1 p2.2.2).bind (fun p3 =>
            ((match tt with
              | some t =>
                if |t - p3.1.last_tilt| > EPS then
                  (actTilt cfg t now fuel
                      (motor (if t > p3.1.last_tilt then Direction.UP else Direction.DOWN) p3.1 p3.2.2).1
                      (motor (if t > p3.1.last_tilt then Direction.UP else Direction.DOWN) p3.1 p3.2.2).2.2).bind
                    (fun p5 =>
                      some (p5.1,
                        (motor (if t > p3.1.last_tilt then Direction.UP else Direction.DOWN) p3.1 p3.2.2).2.1
                          ++ p5.2.1,
                        p5.2.2))
                else some (p3.1, [], p3.2.2)
              | none => some (p3.1, [], p3.2.2)).bind
              (fun p5 =>
                some (clampState { (motor Direction.STOPPED p5.1 p5.2.2).1 with last_timestamp_millis := now },
                  (motor (if tp > s.last_position then Direction.UP else Direction.DOWN) s fl).2.1
                    ++ p2.2.1 ++ p3.2.1 ++ p5.2.1
                    ++ (motor Direction.STOPPED p5.1 p5.2.2).2.1 ++ [Ev.publish],
                  (motor Direction.STOPPED p5.1 p5.2.2).2.2))))) := rfl

lemma act_eq (cfg : Config) (tp0 : ℚ) (tt0 : Option ℚ) (now : ℤ) (fuel : ℕ)
    (s0 : CoverState) (fl : List Bool) :
    act cfg tp0 tt0 now fuel s0 fl =
      (if |clampQ tp0 - s0.last_position| < EPS then
        match Option.map clampQ tt0 with
        | none => actIdleReturn { s0 with cancel_requested := false } fl now
        | some t =>
          if |t - s0.last_tilt| < EPS then
            actIdleReturn { s0 with cancel_requested := false } fl now
          else actTiltOnly cfg t now fuel { s0 with cancel_requested := false } fl
      else actMoveSeq cfg (clampQ tp0) (Option.map clampQ tt0) now fuel
        { s0 with cancel_requested := false } fl) := rfl

lemma actIdleReturn_inRange (s : CoverState) (fl : List Bool) (now : ℤ)
    (r : CoverState × List Ev × List Bool) (hs : inRange s)
    (h : actIdleReturn s fl now = some r) : inRange r.1 := by
  rw [actIdleReturn_eq] at h
  simp only [Option.some.injEq] at h
  rw [← h]
  exact inRange_motor_ts _ _ _ _ hs

lemma actTiltOnly_inRange (cfg : Config) (t : ℚ) (now : ℤ) (fuel : ℕ)
    (s : CoverState) (fl : List Bool) (r : CoverState × List Ev × List Bool)
    (h : actTiltOnly cfg t now fuel s fl = some r) : inRange r.1 := by
  rw [actTiltOnly_eq, Option.bind_eq_some] at h
  obtain ⟨p, hp, h⟩ := h
  simp only [Option.some.injEq] at h
  rw [← h]
  exact clampState_inRange _

lemma actMoveSeq_inRange (cfg : Config) (tp : ℚ) (tt : Option ℚ) (now : ℤ)
    (fuel : ℕ) (s : CoverState) (fl : List Bool)
    (r : CoverState × List Ev × List Bool)
    (h : actMoveSeq cfg tp tt now fuel s fl = some r) : inRange r.1 := by
  rw [actMoveSeq_eq, Option.bind_eq_some] at h
  obtain ⟨p2, hp2, h⟩ := h
  rw [Option.bind_eq_some] at h
  obtain ⟨p3, hp3, h⟩ := h
  rw [Option.bind_eq_some] at h
  obtain ⟨p5, hp5, h⟩ := h
  simp only [Option.some.injEq] at h
  rw [← h]
  exact clampState_inRange _

lemma act_inRange (cfg : Config) (tp : ℚ) (tt : Option ℚ) (now : ℤ) (fuel : ℕ)
    (s0 : CoverState) (fl : List Bool) (r : CoverState × List Ev × List Bool)
    (hs : inRange s0) (h : act cfg tp tt now fuel s0 fl = some r) :
    inRange r.1 := by
  rw [act_eq] at h
  split at h
  · split at h
    · exact actIdleReturn_inRange { s0 with cancel_requested := false } fl now r hs h
    · split at h
      · exact actIdleReturn_inRange { s0 with cancel_requested := false } fl now r hs h
      · exact actTiltOnly_inRange _ _ _ _ _ _ _ h
  · exact actMoveSeq_inRange _ _ _ _ _ _ _ _ h

-- ---- C6: dispatch failure
lemma svc_fail_cancel (c : RawCmd) (s : CoverState) (fl : List Bool) :
    (svc c s (true :: fl)).1.cancel_requested = true := by
  simp [svc]

lemma svc_fail_dir (c : RawCmd) (s : CoverState) (fl : List Bool) :
    (svc c s (true :: fl)).1.last_direction = Direction.STOPPED := by
  simp [svc]

lemma motor_fail_cancel (d : Direction) (s : CoverState) (fl : List Bool)
    (hne : d ≠ s.last_direction) :
    (motor d s (true :: fl)).1.cancel_requested = true := by
  unfold motor
  rw [if_neg hne]
  split
  · next hrev =>
    exact svc_cancel_mono _ _ _ (svc_fail_cancel _ _ _)
  · exact svc_fail_cancel (rawOf d) s fl

-- ---- C7: idempotence
lemma motor_noop (d : Direction) (s : CoverState) (fl : List Bool)
    (h : d = s.last_direction) : motor d s fl = (s, [], fl) := by
  unfold motor
  rw [if_pos h]

-- ---- C8: set_position mapping
lemma setCoverPosition_lt (cfg : Config) (p : ℤ) (now : ℤ) (fuel : ℕ)
    (s : CoverState) (fl : List Bool) (h : (p : ℚ) < s.last_position) :
    setCoverPosition cfg p now fuel s fl = act cfg (p : ℚ) (some 0) now fuel s fl := by
  show act cfg (p : ℚ) (some (if (p : ℚ) < s.last_position then 0 else 100)) now fuel s fl = _
  rw [if_pos h]

lemma setCoverPosition_ge (cfg : Config) (p : ℤ) (now : ℤ) (fuel : ℕ)
    (s : CoverState) (fl : List Bool) (h : ¬ ((p : ℚ) < s.last_position)) :
    setCoverPosition cfg p now fuel s fl = act cfg (p : ℚ) (some 100) now fuel s fl := by
  show act cfg (p : ℚ) (some (if (p : ℚ) < s.last_position then 0 else 100)) now fuel s fl = _
  rw [if_neg h]

-- ---- C9: restore
lemma restoreFields_forward (q1 q2 : ℚ) (s : CoverState) (v : RVal)
    (h : v.asDirection = none) :
    restoreFields
      { last_position := some (RVal.rnum q1), last_tilt := some (RVal.rnum q2),
        last_timestamp_millis := none, last_direction := some v } s =
      { s with last_position := q1, last_tilt := q2 } := by
  unfold restoreFields
  simp [h]

-- ---- C10: rounding
lemma roundHalfEven_zero_iff (q : ℚ) (h : 0 ≤ q) :
    roundHalfEven q = 0 ↔ q ≤ 1/2 := by
  have hf0 : 0 ≤ ⌊q⌋ := Int.floor_nonneg.mpr h
  constructor
  · intro h0
    by_contra hq
    push_neg at hq
    rcases lt_or_le q 1 with h1 | h1
    · have hfz : ⌊q⌋ = 0 := Int.floor_eq_zero_iff.mpr ⟨h, h1⟩
      simp only [roundHalfEven, hfz] at h0
      rw [if_neg (by push_cast; linarith), if_pos (by push_cast; linarith)] at h0
      omega
    · have hf1 : 1 ≤ ⌊q⌋ := by
        rw [Int.le_floor]
        exact_mod_cast h1
      simp only [roundHalfEven] at h0
      split at h0
      · omega
      · split at h0
        · omega
        · split at h0 <;> omega
  · intro hq
    have hfz : ⌊q⌋ = 0 := Int.floor_eq_zero_iff.mpr ⟨h, by linarith⟩
    simp only [roundHalfEven, hfz]
    rcases lt_or_le q (1/2) with h1 | h1
    · rw [if_pos (by push_cast; linarith)]
    · have hq2 : q = 1/2 := le_antisymm hq h1
      rw [if_neg (by push_cast; linarith), if_neg (by push_cast; linarith)]
      norm_num

lemma is_closed_eq (s : CoverState) :
    is_closed s = true ↔ currentCoverPosition s = 0 := by
  unfold is_closed currentCoverPosition
  simp [beq_iff_eq]

-- ---- C2 counterexample
/-! ## Claim theorems -/

/-- C1: the claim states that for every starting state and clamped target
pair, with no cancellation, `act(p, t)` terminates with
`|position - p| < EPS` and `|tilt - t| < EPS`.  The code violates this: with
the Scenario-1 calibration (tilt_time 750 ms, tilt rate 2/15 %/ms), starting
from the initial state, `act(0, 1)` never terminates.  When the remaining
distance drops below one millisecond of travel, `millis_to_boundary` is 0 and
the loop takes a full 100 ms tick, overshooting the target; the tilt then
cycles forever through 0, 14/15, 214/15, 16/15 (the last step clamping back
to exactly 0), so `|tilt - 1| < EPS` never holds and the orchestrated motion
never returns, for every amount of fuel. -/
theorem act_diverges_on_unit_tilt (fuel : ℕ) (now : ℤ) :
    act cfg750 0 (some 1) now fuel initState [] = none := by
  have hm1 : (motor Direction.UP initState []).1.cancel_requested = false := by
    simp [motor, svc, initState]
  have hm2 : (motor Direction.UP initState []).1.last_tilt = 0 := by
    rw [motor_tilt]; rfl
  have hdiv : actTilt cfg750 1 now fuel (motor Direction.UP initState []).1
      (motor Direction.UP initState []).2.2 = none := by
    unfold actTilt
    rw [clampQ_1]
    exact actTiltLoop_diverges now fuel _ _ hm1 (Or.inl hm2)
  have habt : actTiltOnly cfg750 1 now fuel initState [] = none := by
    unfold actTiltOnly
    rw [if_pos (by norm_num [initState] : (1:ℚ) > initState.last_tilt)]
    dsimp only
    rw [hdiv]
    rfl
  unfold act
  simp only [clampQ_0, show Option.map clampQ (some (1:ℚ)) = some 1 by simp [clampQ_1]]
  rw [if_pos (by norm_num [initState, EPS] : |(0:ℚ) - initState.last_position| < EPS)]
  dsimp only
  rw [if_neg (by norm_num [initState, EPS] : ¬ (|(1:ℚ) - initState.last_tilt| < EPS))]
  rw [show CoverState.mk initState.last_position initState.last_tilt
      initState.last_timestamp_millis initState.last_direction false = initState from rfl]
  exact habt
/-- C2 (amended): the clamp invariant `0 ≤ position ≤ 100 ∧ 0 ≤ tilt ≤ 100`
is preserved by every mutation of the simulation — both integrator loops, the
orchestrated motion `_act`, and the stop command — provided it held before.
Restore at startup is excluded: it copies snapshot values without clamping
(see the counterexample). -/
theorem clamp_invariant_preserved :
    (∀ cfg target now n s fl r, inRange s →
        actTiltLoop cfg target now n s fl = some r → inRange r.1) ∧
    (∀ cfg target now n s fl r, inRange s →
        actPosLoop cfg target now n s fl = some r → inRange r.1) ∧
    (∀ cfg tp tt now fuel s fl r, inRange s →
        act cfg tp tt now fuel s fl = some r → inRange r.1) ∧
    (∀ s fl now, inRange s → inRange (stopCover s fl now).1) :=
  ⟨fun cfg target now n s fl r hs h => actTiltLoop_inRange cfg target now n s fl r hs h,
   fun cfg target now n s fl r hs h => actPosLoop_inRange cfg target now n s fl r hs h,
   fun cfg tp tt now fuel s fl r hs h => act_inRange cfg tp tt now fuel s fl r hs h,
   fun s fl now hs => stopCover_inRange s fl now hs⟩

/-- C2 witness: the stop command preserves the invariant on the initial state. -/
theorem clamp_invariant_preserved_witness :
    inRange initState ∧ inRange (stopCover initState [] 5).1 := by
  have hinit : inRange initState := by norm_num [inRange, initState]
  exact ⟨hinit, clamp_invariant_preserved.2.2.2 initState [] 5 hinit⟩

/-- C2 counterexample: restoring a snapshot with `last_position = 150` leaves
`position = 150`, violating the invariant — restore performs no clamping. -/
theorem restore_breaks_clamp_invariant :
    (restoreFields snap150 initState).last_position = 150 ∧
    ¬ inRange (restoreFields snap150 initState) := by
  constructor
  · rfl
  · intro hcontra
    have h2 := hcontra.2.1
    rw [show (restoreFields snap150 initState).last_position = (150:ℚ) from rfl] at h2
    norm_num at h2

/-- C3: in every raw-command sequence emitted by any run of `_motor` calls,
an open command is never adjacent to a close command without an intervening
stop; moreover every direct UP↔DOWN transition emits exactly a raw STOP
followed by the raw command of the new direction. -/
theorem motor_reversal_safety (ds : List Direction) (s : CoverState)
    (fl : List Bool) (d : Direction) (s2 : CoverState) (fl2 : List Bool)
    (hs : s2.last_direction = Direction.UP ∨ s2.last_direction = Direction.DOWN)
    (hd : d = Direction.UP ∨ d = Direction.DOWN)
    (hne : d ≠ s2.last_direction) :
    SafeSeq (txCmds (motorSeq ds s fl).2.1) ∧
    (motor d s2 fl2).2.1 = [Ev.tx RawCmd.stop_cover, Ev.tx (rawOf d)] :=
  ⟨motorSeq_safe ds s fl, motor_trace_reversal d s2 fl2 hs hd hne⟩

/-- C3 witness: a concrete open–close–stop run is reversal-safe, and a DOWN
request while running UP emits STOP then close. -/
theorem motor_reversal_safety_witness :
    SafeSeq (txCmds (motorSeq [Direction.UP, Direction.DOWN, Direction.STOPPED]
      initState []).2.1) ∧
    (motor Direction.DOWN sUP []).2.1 =
      [Ev.tx RawCmd.stop_cover, Ev.tx (rawOf Direction.DOWN)] :=
  motor_reversal_safety [Direction.UP, Direction.DOWN, Direction.STOPPED]
    initState [] Direction.DOWN sUP [] (Or.inl rfl) (Or.inr rfl) (by decide)

/-- C4 (amended): on every iteration whose remaining distance is at least one
millisecond of travel (`int(abs(need)/rate) ≥ 1`), the integrated scalar moves
strictly toward the target without overshoot: the sign of `target - current`
does not flip and the distance shrinks by at least `rate` per step, for both
the tilt and the position integrator.  On a final-approach iteration with
`0 < |need| < rate` the code instead takes a full tick and overshoots,
reversing the sign (see the counterexample). -/
theorem integrator_step_monotone (cfg : Config) (target : ℚ) (s : CoverState)
    (hrt : 0 < cfg.tilt_rate_per_ms) (hrp : 0 < cfg.position_rate_per_ms)
    (hs : inRange s) (ht0 : 0 ≤ target) (ht1 : target ≤ 100) :
    (1 ≤ ratTrunc (|target - s.last_tilt| / cfg.tilt_rate_per_ms) →
      0 ≤ (target - (tiltStep cfg target s).last_tilt) * (target - s.last_tilt) ∧
      |target - (tiltStep cfg target s).last_tilt| ≤
        |target - s.last_tilt| - cfg.tilt_rate_per_ms) ∧
    (1 ≤ ratTrunc (|target - s.last_position| / cfg.position_rate_per_ms) →
      0 ≤ (target - (posStep cfg target s).last_position) * (target - s.last_position) ∧
      |target - (posStep cfg target s).last_position| ≤
        |target - s.last_position| - cfg.position_rate_per_ms) := by
  constructor
  · intro hm
    rw [tiltStep_tilt]
    exact stepScalar_monotone _ _ _ hrt hs.2.2.1 hs.2.2.2 ht0 ht1 hm
  · intro hm
    rw [posStep_position]
    exact stepScalar_monotone _ _ _ hrp hs.1 hs.2.1 ht0 ht1 hm

/-- C4 witness: one step toward 50 from the initial state with the 1000 ms
tilt calibration moves both scalars toward the target. -/
theorem integrator_step_monotone_witness :
    (0 ≤ (50 - (tiltStep cfg1000 50 initState).last_tilt) * (50 - initState.last_tilt) ∧
      |50 - (tiltStep cfg1000 50 initState).last_tilt| ≤
        |50 - initState.last_tilt| - cfg1000.tilt_rate_per_ms) ∧
    (0 ≤ (50 - (posStep cfg1000 50 initState).last_position) * (50 - initState.last_position) ∧
      |50 - (posStep cfg1000 50 initState).last_position| ≤
        |50 - initState.last_position| - cfg1000.position_rate_per_ms) := by
  have h := integrator_step_monotone cfg1000 50 initState
    (by norm_num [Config.tilt_rate_per_ms, cfg1000])
    (by norm_num [Config.position_rate_per_ms, cfg1000])
    (by norm_num [inRange, initState]) (by norm_num) (by norm_num)
  refine ⟨h.1 ?_, h.2 ?_⟩
  · rw [ratTrunc_eq_of (|(50:ℚ) - initState.last_tilt| / cfg1000.tilt_rate_per_ms) 500
      (by norm_num [initState, Config.tilt_rate_per_ms, cfg1000, abs])
      (by norm_num [initState, Config.tilt_rate_per_ms, cfg1000, abs])
      (by norm_num [initState, Config.tilt_rate_per_ms, cfg1000, abs])]
    norm_num
  · rw [ratTrunc_eq_of (|(50:ℚ) - initState.last_position| / cfg1000.position_rate_per_ms) 10000
      (by norm_num [initState, Config.position_rate_per_ms, cfg1000, abs])
      (by norm_num [initState, Config.position_rate_per_ms, cfg1000, abs])
      (by norm_num [initState, Config.position_rate_per_ms, cfg1000, abs])]
    norm_num

/-- C4 counterexample: at tilt 14/15 with target 1 (rate 2/15, a state reached
from tilt 0 after one step), the remaining distance 1/15 is below one
millisecond of travel; the step overshoots to 214/15, flipping the sign of
`target - tilt` and moving the scalar away from the target. -/
theorem tilt_step_reverses_direction :
    0 < 1 - s14.last_tilt ∧
    1 - (tiltStep cfg750 1 s14).last_tilt < 0 ∧
    |1 - s14.last_tilt| < |1 - (tiltStep cfg750 1 s14).last_tilt| := by
  have ht : (tiltStep cfg750 1 s14).last_tilt = 214/15 := by
    rw [tiltStep_tilt, cfg750_tilt_rate]
    exact step_eval_1
  refine ⟨?_, ?_, ?_⟩
  · show (0:ℚ) < 1 - 14/15
    norm_num
  · rw [ht]
    norm_num
  · rw [ht]
    show |(1:ℚ) - 14/15| < |(1:ℚ) - 214/15|
    norm_num [abs]

/-- C5: if `cancel_requested` holds when an integrator iteration begins, both
loops stop the motor (direction STOPPED), resync the timestamp to monotonic
time, publish, and return with position and tilt unchanged. -/
theorem integrator_cancel_early_return (cfg : Config) (target : ℚ) (now : ℤ)
    (n : ℕ) (s : CoverState) (fl : List Bool) (h : s.cancel_requested = true) :
    (∃ s1 t1 fl1,
      actTiltLoop cfg target now (n + 1) s fl = some (s1, t1 ++ [Ev.publish], fl1) ∧
      s1.last_position = s.last_position ∧ s1.last_tilt = s.last_tilt ∧
      s1.last_timestamp_millis = now ∧ s1.last_direction = Direction.STOPPED ∧
      s1.cancel_requested = true) ∧
    (∃ s1 t1 fl1,
      actPosLoop cfg target now (n + 1) s fl = some (s1, t1 ++ [Ev.publish], fl1) ∧
      s1.last_position = s.last_position ∧ s1.last_tilt = s.last_tilt ∧
      s1.last_timestamp_millis = now ∧ s1.last_direction = Direction.STOPPED ∧
      s1.cancel_requested = true) :=
  ⟨actTiltLoop_cancel cfg target now n s fl h,
   actPosLoop_cancel cfg target now n s fl h⟩

/-- C5 witness: a cancelled state while moving UP returns in one iteration
with the motor stopped and the scalars untouched. -/
theorem integrator_cancel_early_return_witness :
    (∃ s1 t1 fl1,
      actTiltLoop cfg750 50 777 1 sCancel [] = some (s1, t1 ++ [Ev.publish], fl1) ∧
      s1.last_position = sCancel.last_position ∧ s1.last_tilt = sCancel.last_tilt ∧
      s1.last_timestamp_millis = 777 ∧ s1.last_direction = Direction.STOPPED ∧
      s1.cancel_requested = true) ∧
    (∃ s1 t1 fl1,
      actPosLoop cfg750 50 777 1 sCancel [] = some (s1, t1 ++ [Ev.publish], fl1) ∧
      s1.last_position = sCancel.last_position ∧ s1.last_tilt = sCancel.last_tilt ∧
      s1.last_timestamp_millis = 777 ∧ s1.last_direction = Direction.STOPPED ∧
      s1.cancel_requested = true) :=
  integrator_cancel_early_return cfg750 50 777 0 sCancel [] rfl

/-- C6 (amended): a failed dispatch makes the `_svc` helper set
`cancel_requested = true` and force `last_direction = STOPPED` at the point of
failure; the enclosing `_motor` call then records the requested direction `d`
as `last_direction` (not STOPPED), but `cancel_requested` remains set, so the
next integrator iteration halts forward motion. -/
theorem dispatch_failure_fail_safe (c : RawCmd) (s : CoverState) (fl : List Bool)
    (d : Direction) (s2 : CoverState) (fl2 : List Bool)
    (hne : d ≠ s2.last_direction) :
    ((svc c s (true :: fl)).1.cancel_requested = true ∧
     (svc c s (true :: fl)).1.last_direction = Direction.STOPPED) ∧
    ((motor d s2 (true :: fl2)).1.cancel_requested = true ∧
     (motor d s2 (true :: fl2)).1.last_direction = d) :=
  ⟨⟨svc_fail_cancel c s fl, svc_fail_dir c s fl⟩,
   ⟨motor_fail_cancel d s2 fl2 hne, motor_dir d s2 (true :: fl2)⟩⟩

/-- C6 witness: a failing dispatch of open_cover from the initial state. -/
theorem dispatch_failure_fail_safe_witness :
    ((svc RawCmd.open_cover initState [true]).1.cancel_requested = true ∧
     (svc RawCmd.open_cover initState [true]).1.last_direction = Direction.STOPPED) ∧
    ((motor Direction.UP initState [true]).1.cancel_requested = true ∧
     (motor Direction.UP initState [true]).1.last_direction = Direction.UP) :=
  dispatch_failure_fail_safe RawCmd.open_cover initState [] Direction.UP
    initState [] (by decide)

/-- C6 counterexample: after `ensure_direction(UP)` with a failing dispatch,
the state's direction is UP, not STOPPED — `_motor` overwrites the fail-safe
direction with the requested one (cancel_requested does remain set). -/
theorem dispatch_failure_direction_overwritten :
    (motor Direction.UP initState [true]).1.cancel_requested = true ∧
    (motor Direction.UP initState [true]).1.last_direction = Direction.UP ∧
    Direction.UP ≠ Direction.STOPPED := ⟨rfl, rfl, by decide⟩

/-- C7 (amended): `ensure_direction` is idempotent — the second of two
consecutive calls with the same direction issues no raw command and leaves the
state and the oracle untouched.  The total number of raw commands over the two
calls equals that of the first call alone: 0 when the direction was already
current, 2 on an UP↔DOWN reversal, 1 otherwise — not always exactly one. -/
theorem ensure_direction_idempotent (d : Direction) (s : CoverState)
    (fl fl2 : List Bool) :
    motor d (motor d s fl).1 fl2 = ((motor d s fl).1, [], fl2) :=
  motor_noop d _ fl2 (motor_dir d s fl).symm

/-- C7 counterexample: two consecutive `ensure_direction(STOPPED)` calls from
the initial state issue zero raw commands in total, not exactly one. -/
theorem ensure_direction_twice_zero_commands :
    (txCmds ((motor Direction.STOPPED initState []).2.1 ++
      (motor Direction.STOPPED (motor Direction.STOPPED initState []).1
        (motor Direction.STOPPED initState []).2.2).2.1)).length = 0 ∧
    (txCmds ((motor Direction.STOPPED initState []).2.1 ++
      (motor Direction.STOPPED (motor Direction.STOPPED initState []).1
        (motor Direction.STOPPED initState []).2.2).2.1)).length ≠ 1 :=
  ⟨rfl, by decide⟩

/-- C8: `async_set_cover_position(p)` invokes the orchestrator with
`target_position = p` and `target_tilt = 0` when `p` is below the current
position, else `target_tilt = 100`. -/
theorem set_position_target_mapping (cfg : Config) (p : ℤ) (now : ℤ)
    (fuel : ℕ) (s : CoverState) (fl : List Bool) :
    ((p : ℚ) < s.last_position →
      setCoverPosition cfg p now fuel s fl = act cfg (p : ℚ) (some 0) now fuel s fl) ∧
    (¬ ((p : ℚ) < s.last_position) →
      setCoverPosition cfg p now fuel s fl = act cfg (p : ℚ) (some 100) now fuel s fl) :=
  ⟨setCoverPosition_lt cfg p now fuel s fl, setCoverPosition_ge cfg p now fuel s fl⟩

/-- C8 witness: from position 50, `set_position(30)` maps to tilt target 0 and
`set_position(80)` maps to tilt target 100. -/
theorem set_position_target_mapping_witness :
    setCoverPosition cfg750 30 0 5 s5010 [] = act cfg750 30 (some 0) 0 5 s5010 [] ∧
    setCoverPosition cfg750 80 0 5 s5010 [] = act cfg750 80 (some 100) 0 5 s5010 [] :=
  ⟨(set_position_target_mapping cfg750 30 0 5 s5010 []).1 (by norm_num [s5010, initState]),
   (set_position_target_mapping cfg750 80 0 5 s5010 []).2 (by norm_num [s5010, initState])⟩

/-- C9 (amended): restore examines the fields in order position, tilt,
timestamp, direction; a direction value that is not one of UP/DOWN/STOPPED is
rejected by the membership test without raising, so position and tilt restored
before it stand and direction keeps its default; no failure is surfaced (the
model is a total function).  Independence is only forward: a field whose
conversion raises aborts restoration of all later fields (see the
counterexample). -/
theorem restore_field_by_field_forward (q1 q2 : ℚ) (s : CoverState) (v : RVal)
    (h : v.asDirection = none) :
    restoreFields
      { last_position := some (RVal.rnum q1), last_tilt := some (RVal.rnum q2),
        last_timestamp_millis := none, last_direction := some v } s =
      { s with last_position := q1, last_tilt := q2 } :=
  restoreFields_forward q1 q2 s v h

/-- C9 witness: Scenario 5 — direction "SIDEWAYS" is rejected, position and
tilt are restored. -/
theorem restore_field_by_field_forward_witness :
    restoreFields
      { last_position := some (RVal.rnum 33), last_tilt := some (RVal.rnum 44),
        last_timestamp_millis := none, last_direction := some (RVal.rstr "SIDEWAYS") }
      initState =
      { initState with last_position := 33, last_tilt := 44 } :=
  restore_field_by_field_forward 33 44 initState (RVal.rstr "SIDEWAYS") rfl

/-- C9 counterexample: a snapshot whose position raises on `float()` and whose
tilt is individually valid (50) leaves the tilt at its default 0 — the tilt is
not restored independently, contrary to the claim. -/
theorem restore_not_field_independent :
    (restoreFields snapAbort initState).last_tilt = 0 ∧ (0 : ℚ) ≠ 50 :=
  ⟨rfl, by norm_num⟩

/-- C10 (amended): the published closed flag holds exactly when the published
integer position (the float position rounded half-to-even) is 0 —
equivalently, for nonnegative positions, exactly when `position ≤ 1/2`; it is
not equivalent to `position == 0` on the float state (see the
counterexample). -/
theorem is_closed_iff_published_zero (s : CoverState)
    (h : 0 ≤ s.last_position) :
    (is_closed s = true ↔ currentCoverPosition s = 0) ∧
    (is_closed s = true ↔ s.last_position ≤ 1/2) := by
  constructor
  · exact is_closed_eq s
  · rw [is_closed_eq s]
    unfold currentCoverPosition
    exact roundHalfEven_zero_iff s.last_position h

/-- C10 witness: the initial state (position 0) is closed. -/
theorem is_closed_iff_published_zero_witness :
    (is_closed initState = true ↔ currentCoverPosition initState = 0) ∧
    (is_closed initState = true ↔ initState.last_position ≤ 1/2) :=
  is_closed_iff_published_zero initState (by norm_num [initState])

/-- C10 counterexample: at float position 0.4 (reachable via restore), the
closed flag is true although the position is not 0. -/
theorem is_closed_true_at_nonzero_position :
    is_closed s04 = true ∧ ¬ (s04.last_position = 0) := by
  constructor
  · unfold is_closed
    have hr : roundHalfEven s04.last_position = 0 := by
      have hfz : ⌊(2:ℚ)/5⌋ = 0 := Int.floor_eq_zero_iff.mpr ⟨by norm_num, by norm_num⟩
      show roundHalfEven ((2:ℚ)/5) = 0
      simp only [roundHalfEven, hfz]
      norm_num
    rw [hr]
    rfl
  · show ¬ ((2:ℚ)/5 = 0)
    norm_num

end CoverPlus
